import Mathlib

/-!
Shallow embedding of the ImageFinder server (src/server.js, current version,
lines 1-498): the multi-round image-acquisition waterfall of the
`/api/find-image` endpoint, its batch scoring (`pickBestFromBatch`), round
assembly (`fetchRound`), the SERP image-search source (`searchSerpApi`), the
DALL-E generative fallback (`generateWithDalle`) and the per-request cost
ledger (`freshCosts` and its accruals).

External HTTP calls (OpenAI, Pexels, Unsplash, SerpApi, DALL-E, Google Drive,
image download) are modelled as an environment `Env` of oracle functions: a
fallible call is an `Except String` value (the `String` is the thrown error
message, caught by the corresponding `.catch` in the source), and the
stock-photo providers are plain result lists because `fetchRound` maps both
their failures and their empty responses to the empty list.  Floating-point
dollar amounts are modelled as exact rationals; no claim depends on rounding.

Instrumentation that the source exposes only through `console.log` and
control flow (which rounds ran, which sources were invoked, thresholds passed
to batch reduction, generative-fallback attempts) is recorded in a `Trace`
value threaded through the model; the trace never influences any computed
result.
-/

/-- Token usage reported by one OpenAI chat completion (`response.data.usage`). -/
structure Usage where
  prompt_tokens : Nat
  completion_tokens : Nat
deriving DecidableEq, Repr

/-- Candidate image as produced by the sources: `{ url, source, credit }`. -/
structure Candidate where
  url : String
  source : String
  credit : String
deriving DecidableEq, Repr

/-- Result of `scoreImage`: the candidate spread together with the judge's
JSON verdict and the call's token usage (`_usage`). -/
structure ScoredCandidate where
  url : String
  source : String
  credit : String
  score : Int
  reason : String
  has_forbidden_brand : Bool
  usage : Option Usage
deriving DecidableEq, Repr

/-- Pricing models appearing in the `PRICE` table of server.js. -/
inductive Model where
  | gpt4oMini
  | gpt4o
deriving DecidableEq, Repr

/-- Per-input-token price from the `PRICE` table. -/
def priceInput : Model → ℚ
  | .gpt4oMini => 0.15 / 1000000
  | .gpt4o => 2.50 / 1000000

/-- Per-output-token price from the `PRICE` table. -/
def priceOutput : Model → ℚ
  | .gpt4oMini => 0.60 / 1000000
  | .gpt4o => 10.00 / 1000000

/-- Price of one DALL-E 3 standard image (`PRICE.dalle3`). -/
def PRICE_dalle3 : ℚ := 0.080

/-- Price of one SerpApi search call (`PRICE.serp`). -/
def PRICE_serp : ℚ := 0.001

/-- Embedding of `calcTokenCost(model, inputTokens, outputTokens)`. -/
def calcTokenCost (m : Model) (inputTokens outputTokens : Nat) : ℚ :=
  inputTokens * priceInput m + outputTokens * priceOutput m

/-- Ledger entry for keyword extraction (`costs.keyword_extraction`). -/
structure TokenCost where
  input_tokens : Nat
  output_tokens : Nat
  usd : ℚ
deriving DecidableEq, Repr

/-- Ledger entry for vision scoring (`costs.vision_scoring`). -/
structure VisionCost where
  calls : Nat
  input_tokens : Nat
  output_tokens : Nat
  usd : ℚ
deriving DecidableEq, Repr

/-- Ledger entry for per-call metered sources (`costs.serp_api`, `costs.dalle3`). -/
structure CallCost where
  calls : Nat
  usd : ℚ
deriving DecidableEq, Repr

/-- Per-request cost ledger, the shape of `freshCosts()`. -/
structure Costs where
  keyword_extraction : TokenCost
  vision_scoring : VisionCost
  serp_api : CallCost
  dalle3 : CallCost
  total_usd : ℚ
deriving DecidableEq, Repr

/-- Embedding of `freshCosts()`: every counter and dollar amount starts at zero. -/
def freshCosts : Costs :=
  { keyword_extraction := { input_tokens := 0, output_tokens := 0, usd := 0 }
    vision_scoring := { calls := 0, input_tokens := 0, output_tokens := 0, usd := 0 }
    serp_api := { calls := 0, usd := 0 }
    dalle3 := { calls := 0, usd := 0 }
    total_usd := 0 }

/-- Cost accrual done by `extractKeywords` after a successful chat completion. -/
def accrueKeyword (costs : Costs) (u : Usage) : Costs :=
  let itok := costs.keyword_extraction.input_tokens + u.prompt_tokens
  let otok := costs.keyword_extraction.output_tokens + u.completion_tokens
  { costs with
      keyword_extraction :=
        { input_tokens := itok, output_tokens := otok
          usd := calcTokenCost .gpt4oMini itok otok } }

/-- One entry of `images_results` in a SerpApi response. -/
structure SerpImage where
  original : String
  source : String
deriving DecidableEq, Repr

/-- Body of a successful SerpApi HTTP response. -/
structure SerpResponse where
  images_results : List SerpImage
deriving DecidableEq, Repr

/-- Embedding of `searchSerpApi(query, costs)` given a successful HTTP
response: meters one call into `costs.serp_api` and maps the first eight
`images_results` entries to candidates.  An HTTP failure never reaches this
point (the `await` throws first), so the caller models it separately. -/
def searchSerpApi (resp : SerpResponse) (costs : Costs) : List Candidate × Costs :=
  let calls := costs.serp_api.calls + 1
  let costs := { costs with serp_api := { calls := calls, usd := calls * PRICE_serp } }
  ((resp.images_results.take 8).map fun img =>
    { url := img.original, source := "serp_google_images", credit := img.source },
   costs)

/-- Helper for the JS element-existence test `if (xs[i]) xs.push(...)`: the
singleton list holding position `i` of `l` when it exists, else empty. -/
def at1 (l : List Candidate) (i : Nat) : List Candidate :=
  (l[i]?).toList

/-- Embedding of the merging loop of `fetchRound`:
`for (let i = 0; i < maxLen && combined.length < 15; i++)` pushing
`serp[i]`, `pexels[i]`, `unsplash[i]` in that order.  The fuel argument
counts the remaining iterations up to `maxLen`; the length guard is checked
once per iteration, before the up-to-three pushes of that iteration. -/
def interleaveLoop (serp pexels unsplash : List Candidate) :
    Nat → Nat → List Candidate → List Candidate
  | 0, _, combined => combined
  | fuel + 1, i, combined =>
    if combined.length < 15 then
      interleaveLoop serp pexels unsplash fuel (i + 1)
        (combined ++ at1 serp i ++ at1 pexels i ++ at1 unsplash i)
    else combined

/-- Merged candidate batch produced by `fetchRound` from the three per-source
result lists (SERP first, then Pexels, then Unsplash). -/
def interleaveCombined (serp pexels unsplash : List Candidate) : List Candidate :=
  interleaveLoop serp pexels unsplash
    (max serp.length (max pexels.length unsplash.length)) 0 []

/-- Modelled from the spec: uncapped round-robin interleaving of three source
lists in priority order, advancing one position per source per interleave
step (`rrSteps a b c n i` performs `n` steps starting at position `i`). -/
def rrSteps (a b c : List Candidate) : Nat → Nat → List Candidate
  | 0, _ => []
  | n + 1, i => (at1 a i ++ at1 b i ++ at1 c i) ++ rrSteps a b c n (i + 1)

/-- Modelled from the spec: full round-robin interleave of three source lists
in priority order, stopping when all sources are exhausted. -/
def rrInterleave (a b c : List Candidate) : List Candidate :=
  rrSteps a b c (max a.length (max b.length c.length)) 0

/-- Verdict JSON returned by the GPT-4o vision call inside `scoreImage`:
`{"score": ..., "reason": ..., "has_forbidden_brand": ...}`. -/
structure JudgeJson where
  score : Int
  reason : String
  has_forbidden_brand : Bool
deriving DecidableEq, Repr

/-- Outcome data of one successful vision HTTP call: the parsed verdict plus
the usage block of the response (`response.data.usage`, kept optional because
`pickBestFromBatch` guards on its presence). -/
structure JudgeReply where
  json : JudgeJson
  usage : Option Usage
deriving DecidableEq, Repr

/-- Planner output: the JSON object parsed by `extractKeywords`.  Optional
fields model JSON absence or null, which behave as JS falsy values. -/
structure Context where
  topic : String
  search_queries : List String
  serp_queries : Option (List String)
  dalle_prompt : String
  visual_style : Option String
  main_entity : Option String
  forbidden_brands : List String
  min_score : Option Int
deriving DecidableEq, Repr

/-- Outcome of `extractKeywords`: the HTTP call may throw before any cost is
accrued, the JSON parse may throw after the usage was accrued, or both
succeed yielding a `Context`. -/
inductive ExtractOutcome where
  | httpError (msg : String)
  | parseError (msg : String) (u : Usage)
  | ok (ctx : Context) (u : Usage)
deriving DecidableEq, Repr

/-- Result of `uploadToDrive`. -/
structure UploadInfo where
  file_id : String
  drive_link : String
  folder : String
deriving DecidableEq, Repr

/-- Environment of external-call oracles for one request.  Fallible calls are
`Except String` values whose error string is the thrown message. -/
structure Env where
  extract : ExtractOutcome
  pexels : String → List Candidate
  unsplash : String → List Candidate
  serpConfigured : Bool
  serp : String → Except String SerpResponse
  vision : Candidate → Except String JudgeReply
  dalle : Except String String
  download : String → Except String Unit
  upload : Except String UploadInfo

/-- Embedding of `scoreImage(candidate, context)`: on success, spreads the
candidate with the parsed verdict and attaches `_usage`; a thrown error
propagates. -/
def scoreImage (env : Env) (c : Candidate) : Except String ScoredCandidate :=
  match env.vision c with
  | .error e => .error e
  | .ok r =>
    .ok { url := c.url, source := c.source, credit := c.credit
          score := r.json.score, reason := r.json.reason
          has_forbidden_brand := r.json.has_forbidden_brand
          usage := r.usage }

/-- Cost accrual step of the collection loop in `pickBestFromBatch`,
performed for each fulfilled result carrying a `_usage` block. -/
def accrueVision (costs : Costs) (u : Usage) : Costs :=
  let calls := costs.vision_scoring.calls + 1
  let itok := costs.vision_scoring.input_tokens + u.prompt_tokens
  let otok := costs.vision_scoring.output_tokens + u.completion_tokens
  { costs with
      vision_scoring :=
        { calls := calls, input_tokens := itok, output_tokens := otok
          usd := calcTokenCost .gpt4o itok otok } }

/-- Body of the `for (const r of results)` loop of `pickBestFromBatch`:
rejected promises are skipped, fulfilled ones accrue vision cost when they
carry usage, and only brand-safe results are pushed onto `scored`. -/
def collectScored (acc : List ScoredCandidate × Costs) (r : Except String ScoredCandidate) :
    List ScoredCandidate × Costs :=
  match r with
  | .error _ => acc
  | .ok result =>
    let costs := match result.usage with
      | some u => accrueVision acc.2 u
      | none => acc.2
    (if result.has_forbidden_brand then acc.1 else acc.1 ++ [result], costs)

/-- Stable insertion step for sorting by score descending: `x` is placed
before the first element whose score does not exceed `x`'s, so equal-score
elements keep their original relative order. -/
def insertByScore (x : ScoredCandidate) : List ScoredCandidate → List ScoredCandidate
  | [] => [x]
  | y :: ys => if y.score ≤ x.score then x :: y :: ys else y :: insertByScore x ys

/-- Model of `scored.sort((a, b) => b.score - a.score)`: JS
`Array.prototype.sort` is a stable sort, and this comparator orders by score
descending, so the observable result is the stable descending-by-score sort. -/
def sortByScoreDesc (l : List ScoredCandidate) : List ScoredCandidate :=
  l.foldr insertByScore []

/-- Ranking tail of `pickBestFromBatch`: return `null` on an empty `scored`
list, otherwise stable-sort by score descending and accept the top candidate
only if it clears `minScore`. -/
def rankAndGate (scored : List ScoredCandidate) (minScore : Int) : Option ScoredCandidate :=
  if scored.isEmpty then none else
  match sortByScoreDesc scored with
  | [] => none
  | best :: _ => if minScore ≤ best.score then some best else none

/-- Pairing of the ranking verdict with the ledger mutated by the collection
loop. -/
def scoredResult (sc : List ScoredCandidate × Costs) (minScore : Int) :
    Option ScoredCandidate × Costs :=
  (rankAndGate sc.1 minScore, sc.2)

/-- Embedding of `pickBestFromBatch(candidates, context, minScore, costs)`:
score all candidates (settled in parallel), drop rejections and brand
violations, stable-sort by score descending, and return the top candidate
only if it clears `minScore`. -/
def pickBestFromBatch (env : Env) (candidates : List Candidate) (minScore : Int)
    (costs : Costs) : Option ScoredCandidate × Costs :=
  if candidates.isEmpty then (none, costs) else
  scoredResult ((candidates.map (scoreImage env)).foldl collectScored ([], costs)) minScore

/-- Trace of observable events of one request: which rounds were assembled,
which stock/web-search sources were invoked (with round and query), which
batch reductions ran (round, effective threshold, batch size), and how many
generative-fallback attempts were made.  Pure instrumentation mirroring the
source's control flow and logging; it never feeds back into any result. -/
structure Trace where
  fetches : List Nat
  stockCalls : List (Nat × String × String)
  serpCalls : List (Nat × String)
  picks : List (Nat × Int × Nat)
  dalleCalls : Nat
deriving DecidableEq, Repr

/-- Trace at the start of a request. -/
def emptyTrace : Trace :=
  { fetches := [], stockCalls := [], serpCalls := [], picks := [], dalleCalls := 0 }

/-- Truthiness of a JS string value: absent, null and the empty string are
falsy. -/
def jsTruthy : Option String → Bool
  | none => false
  | some s => !s.isEmpty

/-- Source-invocation part of `fetchRound` for the SERP provider: runs only
when the query is truthy and the API key is configured, catches an HTTP
failure as an empty list (no metering), and otherwise delegates to
`searchSerpApi` (which meters one call). -/
def serpStep (env : Env) (serpQuery : Option String) (costs : Costs) :
    List Candidate × Costs :=
  if jsTruthy serpQuery && env.serpConfigured then
    match env.serp (serpQuery.getD "") with
    | .error _ => ([], costs)
    | .ok resp => searchSerpApi resp costs
  else ([], costs)

/-- Embedding of `fetchRound(pexelsQuery, unsplashQuery, serpQuery, costs)`
for round `n`: each source runs only if its query is truthy (and, for SERP,
the API key is configured); source failures are caught as empty lists; the
three result lists are merged by the capped interleaving loop.  The trace
records the assembled round and every source invocation attempted. -/
def fetchRound (env : Env) (n : Nat) (pexelsQuery unsplashQuery serpQuery : Option String)
    (costs : Costs) (tr : Trace) : List Candidate × Costs × Trace :=
  let pexels := if jsTruthy pexelsQuery then env.pexels (pexelsQuery.getD "") else []
  let unsplash := if jsTruthy unsplashQuery then env.unsplash (unsplashQuery.getD "") else []
  let serpOut := serpStep env serpQuery costs
  let tr :=
    { tr with
        fetches := tr.fetches ++ [n]
        stockCalls := tr.stockCalls
          ++ (if jsTruthy pexelsQuery then [(n, "pexels", pexelsQuery.getD "")] else [])
          ++ (if jsTruthy unsplashQuery then [(n, "unsplash", unsplashQuery.getD "")] else [])
        serpCalls := tr.serpCalls
          ++ (if jsTruthy serpQuery && env.serpConfigured
              then [(n, serpQuery.getD "")] else []) }
  (interleaveCombined serpOut.1 pexels unsplash, serpOut.2, tr)

/-- Image accepted by the waterfall: either a scored retrieval candidate or
the DALL-E fallback object. -/
structure ImageResult where
  url : String
  source : String
  credit : String
  score : Int
  reason : String
deriving DecidableEq, Repr

/-- View of a round winner as the accepted image. -/
def ofScored (s : ScoredCandidate) : ImageResult :=
  { url := s.url, source := s.source, credit := s.credit
    score := s.score, reason := s.reason }

/-- Object returned by `generateWithDalle`: fixed provenance, synthetic score
9 and fixed rationale, exempt from judging. -/
def dalleResult (url : String) : ImageResult :=
  { url := url, source := "openai_dalle3", credit := "AI Generated"
    score := 9, reason := "Custom generated for exact topic and brand style" }

/-- Embedding of the guarded `generateWithDalle(...).catch(e => null)` call:
the attempt is always made (traced), cost is metered only on success, and a
failure yields `null`. -/
def generateWithDalle (env : Env) (costs : Costs) (tr : Trace) :
    Option ImageResult × Costs × Trace :=
  let tr := { tr with dalleCalls := tr.dalleCalls + 1 }
  match env.dalle with
  | .error _ => (none, costs, tr)
  | .ok url =>
    let calls := costs.dalle3.calls + 1
    (some (dalleResult url),
     { costs with dalle3 := { calls := calls, usd := calls * PRICE_dalle3 } },
     tr)

/-- One waterfall round of the endpoint: assemble the batch, then run batch
reduction only when the batch is non-empty (`if (roundN.length)`). -/
def runRound (env : Env) (n : Nat) (pq uq sq : Option String) (th : Int)
    (costs : Costs) (tr : Trace) : Option ScoredCandidate × Costs × Trace :=
  let fr := fetchRound env n pq uq sq costs tr
  let batch := fr.1
  let costs := fr.2.1
  let tr := fr.2.2
  if batch.isEmpty then (none, costs, tr)
  else
    let tr := { tr with picks := tr.picks ++ [(n, th, batch.length)] }
    let pb := pickBestFromBatch env batch th costs
    (pb.1, pb.2, tr)

/-- Stock/web-search query pair of round `n` (1-based): `search_queries[n-1]`
and `serp_queries ? serp_queries[n-1] : null`. -/
def roundQueries (ctx : Context) (i : Nat) : Option String × Option String :=
  (ctx.search_queries[i]?,
   match ctx.serp_queries with
   | some qs => qs[i]?
   | none => none)

/-- Retrieval portion of the waterfall: rounds 1 to 3 with thresholds
`th`, `th - 1`, `th - 2`, short-circuiting on the first winner.  The round
number of the winner is returned alongside it (instrumentation only). -/
def runRounds (env : Env) (ctx : Context) (th : Int) (costs : Costs) (tr : Trace) :
    Option (Nat × ScoredCandidate) × Costs × Trace :=
  match runRound env 1 (roundQueries ctx 0).1 (roundQueries ctx 0).1
      (roundQueries ctx 0).2 th costs tr with
  | (some w, c1, t1) => (some (1, w), c1, t1)
  | (none, c1, t1) =>
    match runRound env 2 (roundQueries ctx 1).1 (roundQueries ctx 1).1
        (roundQueries ctx 1).2 (th - 1) c1 t1 with
    | (some w, c2, t2) => (some (2, w), c2, t2)
    | (none, c2, t2) =>
      match runRound env 3 (roundQueries ctx 2).1 (roundQueries ctx 2).1
          (roundQueries ctx 2).2 (th - 2) c2 t2 with
      | (some w, c3, t3) => (some (3, w), c3, t3)
      | (none, c3, t3) => (none, c3, t3)

/-- Full waterfall: three retrieval rounds, then the generative fallback when
no round produced a winner. -/
def waterfall (env : Env) (ctx : Context) (th : Int) (costs : Costs) (tr : Trace) :
    Option ImageResult × Costs × Trace :=
  match runRounds env ctx th costs tr with
  | (some nw, costs, tr) => (some (ofScored nw.2), costs, tr)
  | (none, costs, tr) => generateWithDalle env costs tr

/-- Body of a failure response: `{ success: false, error: message }`. -/
structure ErrBody where
  success : Bool
  error : String
deriving DecidableEq, Repr

/-- Cost breakdown object of the success response (exact rational amounts;
the source additionally rounds for display). -/
structure CostBreakdown where
  keyword_extraction : TokenCost
  vision_scoring : VisionCost
  serp_api : CallCost
  dalle3 : CallCost
  total_usd : ℚ
deriving DecidableEq, Repr

/-- Body of the success response of `/api/find-image`. -/
structure SuccessBody where
  file_id : String
  drive_link : String
  image_url : String
  source : String
  score : Option Int
  score_reason : Option String
  topic : String
  main_entity : Option String
  visual_style : Option String
  folder : String
  cost_breakdown : CostBreakdown
deriving DecidableEq, Repr

/-- HTTP response of the endpoint: 400, 500 or 200. -/
inductive Response where
  | badRequest (body : ErrBody)
  | serverError (body : ErrBody)
  | success (body : SuccessBody)
deriving DecidableEq, Repr

/-- JS `x || default` on an integer-valued field: absent, null and 0 are
falsy and select the default. -/
def jsOrInt : Option Int → Int → Int
  | none, d => d
  | some v, d => if v = 0 then d else v

/-- Threshold computation of the endpoint: `const threshold = min_score || 7`. -/
def handlerThreshold (ctx : Context) : Int :=
  jsOrInt ctx.min_score 7

/-- JS `x || null` on the integer `score` field of the accepted image. -/
def jsOrNullInt (v : Int) : Option Int :=
  if v = 0 then none else some v

/-- JS `x || null` on the string `reason` field of the accepted image. -/
def jsOrNullStr (s : String) : Option String :=
  if s.isEmpty then none else some s

/-- Finalization step of the ledger, run only on the success path:
`costs.total_usd = keyword + vision + serp + dalle`. -/
def finalizeCosts (costs : Costs) : Costs :=
  { costs with
      total_usd := costs.keyword_extraction.usd + costs.vision_scoring.usd
        + costs.serp_api.usd + costs.dalle3.usd }

/-- Success body of `/api/find-image`, with the cost breakdown read from the
finalized ledger. -/
def successResponse (ctx : Context) (img : ImageResult) (up : UploadInfo)
    (costs : Costs) : Response :=
  .success
    { file_id := up.file_id, drive_link := up.drive_link
      image_url := img.url, source := img.source
      score := jsOrNullInt img.score
      score_reason := jsOrNullStr img.reason
      topic := ctx.topic, main_entity := ctx.main_entity
      visual_style := ctx.visual_style, folder := up.folder
      cost_breakdown :=
        { keyword_extraction := costs.keyword_extraction
          vision_scoring := costs.vision_scoring
          serp_api := costs.serp_api
          dalle3 := costs.dalle3
          total_usd := costs.total_usd } }

/-- Embedding of the `/api/find-image` handler.  The returned ledger and
trace are the request's final internal state, exposed for observation; the
HTTP layer only ever sees the `Response`. -/
def handler (env : Env) (linkedin_post : Option String) : Response × Costs × Trace :=
  if !jsTruthy linkedin_post then
    (.badRequest { success := false, error := "linkedin_post is required" },
     freshCosts, emptyTrace)
  else
    match env.extract with
    | .httpError msg =>
      (.serverError { success := false, error := msg }, freshCosts, emptyTrace)
    | .parseError msg u =>
      (.serverError { success := false, error := msg },
       accrueKeyword freshCosts u, emptyTrace)
    | .ok ctx u =>
      match waterfall env ctx (handlerThreshold ctx) (accrueKeyword freshCosts u)
          emptyTrace with
      | (none, costs, tr) =>
        (.serverError { success := false, error := "All image sources failed" },
         costs, tr)
      | (some img, costs, tr) =>
        match env.download img.url with
        | .error msg => (.serverError { success := false, error := msg }, costs, tr)
        | .ok _ =>
          match env.upload with
          | .error msg => (.serverError { success := false, error := msg }, costs, tr)
          | .ok up =>
            (successResponse ctx img up (finalizeCosts costs), finalizeCosts costs, tr)

/-! Concrete fixtures used by witnesses and counterexamples. -/

/-- Candidate fixture builder. -/
def mkCand (s : String) : Candidate :=
  { url := s, source := "x", credit := "y" }

/-- Eight-element SERP result list fixture. -/
def serpEight : List Candidate :=
  [mkCand "s0", mkCand "s1", mkCand "s2", mkCand "s3",
   mkCand "s4", mkCand "s5", mkCand "s6", mkCand "s7"]

/-- Eight-element Pexels result list fixture. -/
def pexelsEight : List Candidate :=
  [mkCand "p0", mkCand "p1", mkCand "p2", mkCand "p3",
   mkCand "p4", mkCand "p5", mkCand "p6", mkCand "p7"]

/-- Planner context fixture: no named entity, no explicit threshold, no SERP
queries. -/
def ctxW : Context :=
  { topic := "general_tech_post", search_queries := ["q1", "q2", "q3"]
    serp_queries := none, dalle_prompt := "prompt", visual_style := none
    main_entity := none, forbidden_brands := [], min_score := none }

/-- Judge verdict fixture: brand-safe score 9, no usage block (so witness
ledgers stay syntactically untouched). -/
def verdictNine : JudgeReply :=
  { json := { score := 9, reason := "good", has_forbidden_brand := false }
    usage := none }

/-- Environment fixture in which every external call fails or is empty. -/
def envAllFail : Env :=
  { extract := .httpError "keyword extraction down"
    pexels := fun _ => [], unsplash := fun _ => []
    serpConfigured := false, serp := fun _ => .error "serp down"
    vision := fun _ => .error "vision down"
    dalle := .error "dalle down"
    download := fun _ => .error "download down"
    upload := .error "upload down" }

/-- Environment fixture in which round 1 finds one brand-safe candidate that
scores 9 with the judge. -/
def envRound1Win : Env :=
  { envAllFail with
      extract := .ok ctxW { prompt_tokens := 100, completion_tokens := 50 }
      pexels := fun _ => [mkCand "winner"]
      vision := fun _ => .ok verdictNine }

/-- Environment fixture in which extraction succeeds but every round is empty
and the generative fallback fails. -/
def envGenFail : Env :=
  { envAllFail with
      extract := .ok ctxW { prompt_tokens := 100, completion_tokens := 50 } }

/-- Environment fixture in which the judge throws on the candidate named
`"failing"` and scores everything else 9. -/
def envOneJudgeFail : Env :=
  { envAllFail with
      vision := fun c =>
        if c.url = "failing" then .error "vision threw" else .ok verdictNine }

/-! Theorems settling the claims. -/

/-- C9: every completed invocation of the web-image-search provider meters
exactly one `webSearch` unit (one `serp_api` call) into the cost ledger,
whatever the response's result list is — including the empty list.  The cost
is per call, not per result. -/
theorem serp_meters_one_unit_per_call (resp : SerpResponse) (costs : Costs) :
    (searchSerpApi resp costs).2.serp_api.calls = costs.serp_api.calls + 1 ∧
    (searchSerpApi resp costs).2.serp_api.usd
      = ((costs.serp_api.calls + 1 : Nat) : ℚ) * PRICE_serp := by
  constructor <;> rfl

/-- C3 counterexample: with `min_score` absent and `main_entity` null the
endpoint's threshold (`const threshold = min_score || 7`) is 7, not the 6
the claim requires for a post that names no specific entity. -/
theorem threshold_default_ignores_entity_counterexample :
    ctxW.min_score = none ∧ ctxW.main_entity = none ∧
    handlerThreshold ctxW = 7 ∧ handlerThreshold ctxW ≠ 6 := by
  refine ⟨rfl, rfl, rfl, ?_⟩
  decide

/-- C3 (amended): when the planner result omits `min_score`, the endpoint's
threshold defaults to 7 for every context, regardless of whether
`main_entity` is set. -/
theorem threshold_default_always_seven (ctx : Context) (h : ctx.min_score = none) :
    handlerThreshold ctx = 7 := by
  simp [handlerThreshold, jsOrInt, h]

/-- Witness for the amended C3 theorem at a concrete entity-free context. -/
theorem threshold_default_always_seven_witness :
    ctxW.min_score = none ∧ handlerThreshold ctxW = 7 :=
  ⟨rfl, threshold_default_always_seven ctxW rfl⟩

/-- Every candidate on the `scored` list built by the collection loop of
`pickBestFromBatch` is brand-safe, provided the accumulator started
brand-safe: the loop pushes a result only after the
`if (!result.has_forbidden_brand)` guard. -/
theorem collectScored_brand_safe (results : List (Except String ScoredCandidate))
    (acc : List ScoredCandidate × Costs)
    (h : ∀ x ∈ acc.1, x.has_forbidden_brand = false) :
    ∀ x ∈ (results.foldl collectScored acc).1, x.has_forbidden_brand = false := by
  induction results generalizing acc with
  | nil => exact h
  | cons r rest ih =>
    rw [List.foldl_cons]
    refine ih _ ?_
    intro x hx
    cases r with
    | error e => exact h x hx
    | ok result =>
      by_cases hf : result.has_forbidden_brand
      · simp only [collectScored, hf, if_pos] at hx
        exact h x hx
      · simp only [collectScored, hf, if_neg, Bool.false_eq_true, not_false_iff,
          List.mem_append, List.mem_singleton] at hx
        rcases hx with hx | hx
        · exact h x hx
        · subst hx
          simpa using hf

/-- Membership through the stable insertion step. -/
theorem mem_insertByScore {x c : ScoredCandidate} {l : List ScoredCandidate}
    (h : c ∈ insertByScore x l) : c = x ∨ c ∈ l := by
  induction l with
  | nil =>
    cases h with
    | head => exact Or.inl rfl
    | tail _ h => cases h
  | cons y ys ih =>
    unfold insertByScore at h
    by_cases hc : y.score ≤ x.score
    · rw [if_pos hc] at h
      cases h with
      | head => exact Or.inl rfl
      | tail _ h => exact Or.inr h
    · rw [if_neg hc] at h
      cases h with
      | head => exact Or.inr (List.mem_cons_self _ _)
      | tail _ h =>
        rcases ih h with h' | h'
        · exact Or.inl h'
        · exact Or.inr (List.mem_cons_of_mem _ h')

/-- Membership through the stable descending sort. -/
theorem mem_sortByScoreDesc {c : ScoredCandidate} {l : List ScoredCandidate}
    (h : c ∈ sortByScoreDesc l) : c ∈ l := by
  induction l with
  | nil => cases h
  | cons y ys ih =>
    have hh : c ∈ insertByScore y (sortByScoreDesc ys) := h
    rcases mem_insertByScore hh with h' | h'
    · subst h'
      exact List.mem_cons_self _ _
    · exact List.mem_cons_of_mem _ (ih h')

/-- The candidate accepted by the ranking tail of `pickBestFromBatch` is a
member of the `scored` list it ranked. -/
theorem rankAndGate_mem {scored : List ScoredCandidate} {minScore : Int}
    {c : ScoredCandidate} (h : rankAndGate scored minScore = some c) : c ∈ scored := by
  unfold rankAndGate at h
  split at h
  · exact absurd h (by simp)
  · split at h
    · exact absurd h (by simp)
    · rename_i best rest heq
      split at h
      · have hmem : best ∈ sortByScoreDesc scored := by
          rw [heq]
          exact List.mem_cons_self _ _
        cases h
        exact mem_sortByScoreDesc hmem
      · exact absurd h (by simp)

/-- C1: for every candidate batch, every judging environment and every
threshold, `pickBestFromBatch` never returns a winner whose
`has_forbidden_brand` flag is true — brand violations are filtered out before
ranking, regardless of score. -/
theorem pickBest_never_accepts_brand_violation (env : Env)
    (candidates : List Candidate) (minScore : Int) (costs : Costs)
    (c : ScoredCandidate) (costs' : Costs)
    (h : pickBestFromBatch env candidates minScore costs = (some c, costs')) :
    c.has_forbidden_brand = false := by
  unfold pickBestFromBatch at h
  split at h
  · exact absurd h (by simp)
  · unfold scoredResult at h
    have hrank : rankAndGate
        ((candidates.map (scoreImage env)).foldl collectScored ([], costs)).1 minScore
        = some c := congrArg Prod.fst h
    exact collectScored_brand_safe _ ([], costs) (by simp) c (rankAndGate_mem hrank)

/-- Witness for C1: a concrete batch whose single candidate scores 9 and is
brand-safe is in fact returned, and the returned winner is brand-safe. -/
theorem pickBest_never_accepts_brand_violation_witness :
    ({ url := "u", source := "pexels", credit := "ph", score := 9, reason := "good"
       has_forbidden_brand := false, usage := none } : ScoredCandidate).has_forbidden_brand
      = false :=
  pickBest_never_accepts_brand_violation
    { envAllFail with vision := fun _ => .ok verdictNine }
    [{ url := "u", source := "pexels", credit := "ph" }] 7 freshCosts
    _ freshCosts rfl

/-- C7: a single candidate whose judge call throws is dropped from the batch
without failing it: `pickBestFromBatch` on a batch containing the failing
candidate returns exactly the same winner and the same ledger as on the batch
with that candidate removed — the siblings still participate in reduction and
the round proceeds. -/
theorem judge_failure_isolated (env : Env) (l1 l2 : List Candidate)
    (c0 : Candidate) (e : String) (minScore : Int) (costs : Costs)
    (h : scoreImage env c0 = .error e) :
    pickBestFromBatch env (l1 ++ c0 :: l2) minScore costs
      = pickBestFromBatch env (l1 ++ l2) minScore costs := by
  have hfold : ((l1 ++ c0 :: l2).map (scoreImage env)).foldl collectScored ([], costs)
      = ((l1 ++ l2).map (scoreImage env)).foldl collectScored ([], costs) := by
    simp only [List.map_append, List.map_cons, List.foldl_append, List.foldl_cons, h]
    rfl
  rcases hl : l1 ++ l2 with _ | ⟨x, xs⟩
  · rcases List.append_eq_nil.mp hl with ⟨h1, h2⟩
    subst h1
    subst h2
    simp only [List.nil_append, pickBestFromBatch, List.isEmpty_cons, List.isEmpty_nil,
      Bool.false_eq_true, if_false, if_true, List.map_cons, List.map_nil,
      List.foldl_cons, List.foldl_nil, h]
    rfl
  · have hne : ((l1 ++ c0 :: l2).isEmpty) = false := by
      rcases l1 with _ | ⟨a, as⟩ <;> rfl
    have hne' : ((l1 ++ l2).isEmpty) = false := by
      rw [hl]
      rfl
    rw [← hl] at *
    simp only [pickBestFromBatch, hne, hne', Bool.false_eq_true, if_false, hfold]

/-- Witness for C7: one failing candidate among three scoring siblings leaves
the three-sibling reduction result unchanged. -/
theorem judge_failure_isolated_witness :
    pickBestFromBatch envOneJudgeFail
        [mkCand "a", mkCand "failing", mkCand "b", mkCand "c"] 7 freshCosts
      = pickBestFromBatch envOneJudgeFail [mkCand "a", mkCand "b", mkCand "c"] 7 freshCosts :=
  judge_failure_isolated envOneJudgeFail [mkCand "a"] [mkCand "b", mkCand "c"]
    (mkCand "failing") "vision threw" 7 freshCosts rfl

/-- Length contributed by one source at one interleave position. -/
theorem at1_length (l : List Candidate) (i : Nat) :
    (at1 l i).length = if i < l.length then 1 else 0 := by
  by_cases h : i < l.length
  · simp [at1, List.getElem?_eq_getElem h, h]
  · simp [at1, List.getElem?_eq_none (le_of_not_lt h), h]

/-- C4 counterexample: with eight SERP results, eight Pexels results and no
Unsplash results, the merged batch holds 16 candidates — more than the
claimed hard cap of 15, because the cap is only checked between interleave
steps and the final step pushes two more candidates past 14. -/
theorem merged_batch_can_exceed_fifteen :
    (interleaveCombined serpEight pexelsEight []).length = 16 ∧
    ¬(interleaveCombined serpEight pexelsEight []).length ≤ 15 := by
  constructor <;> decide

/-- Loop invariant giving the amended cap: as long as the accumulator length
is the number of positions already consumed from each source, the result of
the merging loop never exceeds 16 candidates. -/
theorem interleaveLoop_length_le (serp pexels unsplash : List Candidate) :
    ∀ (fuel i : Nat) (acc : List Candidate),
      acc.length = min i serp.length + min i pexels.length + min i unsplash.length →
      acc.length ≤ 16 →
      (interleaveLoop serp pexels unsplash fuel i acc).length ≤ 16 := by
  intro fuel
  induction fuel with
  | zero =>
    intro i acc _ hle
    exact hle
  | succ n ih =>
    intro i acc hinv hle
    unfold interleaveLoop
    by_cases hlt : acc.length < 15
    · rw [if_pos hlt]
      refine ih (i + 1) _ ?_ ?_
      · simp only [List.length_append, at1_length]
        split_ifs <;> omega
      · simp only [List.length_append, at1_length]
        split_ifs <;> omega
    · rw [if_neg hlt]
      exact hle

/-- C4 (amended): the merged candidate batch of the round assembler contains
at most 16 candidates; merging stops once all sources are exhausted or the
count has reached at least 15, and the step that crosses the cap can add at
most one extra candidate beyond 15. -/
theorem merged_batch_at_most_sixteen (serp pexels unsplash : List Candidate) :
    (interleaveCombined serp pexels unsplash).length ≤ 16 := by
  unfold interleaveCombined
  exact interleaveLoop_length_le serp pexels unsplash _ 0 [] (by simp) (by simp)

/-- Length bound for the uncapped round-robin interleave suffix. -/
theorem rrSteps_length_le (a b c : List Candidate) :
    ∀ (n i : Nat), (rrSteps a b c n i).length
      ≤ (a.length - i) + (b.length - i) + (c.length - i) := by
  intro n
  induction n with
  | zero =>
    intro i
    simp [rrSteps]
  | succ m ih =>
    intro i
    have hnext := ih (i + 1)
    simp only [rrSteps, List.length_append, at1_length] at hnext ⊢
    split_ifs <;> omega

/-- While the accumulator plus the remaining round-robin suffix stays within
the cap, the capped merging loop computes exactly the round-robin interleave
continuation. -/
theorem interleaveLoop_eq_rrSteps (serp pexels unsplash : List Candidate) :
    ∀ (fuel i : Nat) (acc : List Candidate),
      acc.length + (rrSteps serp pexels unsplash fuel i).length ≤ 15 →
      interleaveLoop serp pexels unsplash fuel i acc
        = acc ++ rrSteps serp pexels unsplash fuel i := by
  intro fuel
  induction fuel with
  | zero =>
    intro i acc _
    simp [interleaveLoop, rrSteps]
  | succ n ih =>
    intro i acc h
    have hstep : rrSteps serp pexels unsplash (n + 1) i
        = (at1 serp i ++ at1 pexels i ++ at1 unsplash i)
          ++ rrSteps serp pexels unsplash n (i + 1) := rfl
    unfold interleaveLoop
    by_cases hlt : acc.length < 15
    · rw [if_pos hlt]
      have hbound : (acc ++ at1 serp i ++ at1 pexels i ++ at1 unsplash i).length
          + (rrSteps serp pexels unsplash n (i + 1)).length ≤ 15 := by
        rw [hstep] at h
        simp only [List.length_append] at h ⊢
        omega
      rw [ih (i + 1) _ hbound, hstep]
      simp [List.append_assoc]
    · rw [if_neg hlt]
      have hz : (rrSteps serp pexels unsplash (n + 1) i).length = 0 := by omega
      rw [List.length_eq_zero.mp hz, List.append_nil]

/-- C5: whenever the three per-source result lists fit inside the cap (at
most 15 candidates in total, so the cap cannot interfere), the round
assembler's merge is exactly the round-robin interleave across the sources in
the fixed priority order SERP (web search) first, then Pexels, then Unsplash,
advancing one position per source per interleave step. -/
theorem fetchRound_round_robin (serp pexels unsplash : List Candidate)
    (h : serp.length + pexels.length + unsplash.length ≤ 15) :
    interleaveCombined serp pexels unsplash = rrInterleave serp pexels unsplash := by
  unfold interleaveCombined rrInterleave
  have hb : ([] : List Candidate).length
      + (rrSteps serp pexels unsplash
          (max serp.length (max pexels.length unsplash.length)) 0).length ≤ 15 := by
    have := rrSteps_length_le serp pexels unsplash
      (max serp.length (max pexels.length unsplash.length)) 0
    simp only [List.length_nil, Nat.zero_add]
    omega
  rw [interleaveLoop_eq_rrSteps serp pexels unsplash _ 0 [] hb]
  simp

/-- Witness for C5, the spec's own example: source A returning 3 items and
source B returning 1 item in priority order [A, B] merge to A0, B0, A1, A2. -/
theorem fetchRound_round_robin_witness :
    interleaveCombined [mkCand "A0", mkCand "A1", mkCand "A2"] [mkCand "B0"] []
      = [mkCand "A0", mkCand "B0", mkCand "A1", mkCand "A2"] := by
  rw [fetchRound_round_robin _ _ _ (by decide)]
  decide

/-- Trace effect of one round assembly, read off the definition. -/
theorem fetchRound_trace_eq (env : Env) (n : Nat) (pq uq sq : Option String)
    (costs : Costs) (tr : Trace) :
    (fetchRound env n pq uq sq costs tr).2.2
      = { tr with
          fetches := tr.fetches ++ [n]
          stockCalls := tr.stockCalls
            ++ (if jsTruthy pq then [(n, "pexels", pq.getD "")] else [])
            ++ (if jsTruthy uq then [(n, "unsplash", uq.getD "")] else [])
          serpCalls := tr.serpCalls
            ++ (if jsTruthy sq && env.serpConfigured then [(n, sq.getD "")] else []) } :=
  rfl

/-- Ledger effect of one round assembly: only the SERP step touches it. -/
theorem fetchRound_costs_eq (env : Env) (n : Nat) (pq uq sq : Option String)
    (costs : Costs) (tr : Trace) :
    (fetchRound env n pq uq sq costs tr).2.1 = (serpStep env sq costs).2 :=
  rfl

/-- The SERP step never touches the ledger's grand total. -/
theorem serpStep_total (env : Env) (sq : Option String) (costs : Costs) :
    (serpStep env sq costs).2.total_usd = costs.total_usd := by
  unfold serpStep
  split
  · rcases h : env.serp (sq.getD "") with e | resp <;> simp [h, searchSerpApi]
  · rfl

/-- The collection loop of `pickBestFromBatch` never touches the grand total. -/
theorem collectScored_total (results : List (Except String ScoredCandidate))
    (acc : List ScoredCandidate × Costs) :
    ((results.foldl collectScored acc).2).total_usd = acc.2.total_usd := by
  induction results generalizing acc with
  | nil => rfl
  | cons r rest ih =>
    rw [List.foldl_cons, ih]
    cases r with
    | error e => rfl
    | ok result =>
      cases hu : result.usage with
      | none => simp [collectScored, hu]
      | some u => simp [collectScored, hu, accrueVision]

/-- Batch reduction never touches the grand total. -/
theorem pickBest_total (env : Env) (candidates : List Candidate) (minScore : Int)
    (costs : Costs) :
    (pickBestFromBatch env candidates minScore costs).2.total_usd = costs.total_usd := by
  unfold pickBestFromBatch
  split
  · rfl
  · simp only [scoredResult]
    exact collectScored_total _ ([], costs)

/-- Membership in a conditional singleton list. -/
theorem mem_if_singleton {α : Type} {s x : α} {c : Prop} [Decidable c]
    (h : s ∈ (if c then [x] else [])) : s = x := by
  by_cases hc : c
  · rw [if_pos hc] at h
    simpa using h
  · rw [if_neg hc] at h
    simp at h

/-- Unfolding equation of `runRound` with the intermediate lets expanded. -/
theorem runRound_eq (env : Env) (n : Nat) (pq uq sq : Option String) (th : Int)
    (costs : Costs) (tr : Trace) :
    runRound env n pq uq sq th costs tr
      = if (fetchRound env n pq uq sq costs tr).1.isEmpty then
          (none, (fetchRound env n pq uq sq costs tr).2.1,
           (fetchRound env n pq uq sq costs tr).2.2)
        else
          ((pickBestFromBatch env (fetchRound env n pq uq sq costs tr).1 th
              (fetchRound env n pq uq sq costs tr).2.1).1,
           (pickBestFromBatch env (fetchRound env n pq uq sq costs tr).1 th
              (fetchRound env n pq uq sq costs tr).2.1).2,
           { (fetchRound env n pq uq sq costs tr).2.2 with
               picks := (fetchRound env n pq uq sq costs tr).2.2.picks
                 ++ [(n, th, (fetchRound env n pq uq sq costs tr).1.length)] }) :=
  rfl

/-- Per-round bookkeeping: one round tags every event it adds with its own
round number and threshold, leaves the generative counter alone, and never
touches the ledger's grand total. -/
theorem runRound_trace {env : Env} {n : Nat} {pq uq sq : Option String} {th : Int}
    {costs : Costs} {tr : Trace} {o : Option ScoredCandidate} {c : Costs} {t : Trace}
    (h : runRound env n pq uq sq th costs tr = (o, c, t)) :
    t.dalleCalls = tr.dalleCalls ∧
    t.fetches = tr.fetches ++ [n] ∧
    (∀ s ∈ t.stockCalls, s ∈ tr.stockCalls ∨ s.1 = n) ∧
    (∀ s ∈ t.serpCalls, s ∈ tr.serpCalls ∨ s.1 = n) ∧
    (∀ p ∈ t.picks, p ∈ tr.picks ∨ (p.1 = n ∧ p.2.1 = th)) ∧
    c.total_usd = costs.total_usd := by
  rw [runRound_eq] at h
  by_cases hb : (fetchRound env n pq uq sq costs tr).1.isEmpty
  · rw [if_pos hb] at h
    injection h with h1 h23
    injection h23 with h2 h3
    subst h1
    subst h2
    subst h3
    rw [fetchRound_trace_eq, fetchRound_costs_eq]
    refine ⟨rfl, rfl, ?_, ?_, ?_, serpStep_total env sq costs⟩
    · intro s hs
      simp only [List.mem_append] at hs
      rcases hs with (hs | hs) | hs
      · exact Or.inl hs
      · rw [mem_if_singleton hs]
        exact Or.inr rfl
      · rw [mem_if_singleton hs]
        exact Or.inr rfl
    · intro s hs
      simp only [List.mem_append] at hs
      rcases hs with hs | hs
      · exact Or.inl hs
      · rw [mem_if_singleton hs]
        exact Or.inr rfl
    · intro p hp
      exact Or.inl hp
  · rw [if_neg hb] at h
    injection h with h1 h23
    injection h23 with h2 h3
    subst h1
    subst h2
    subst h3
    rw [fetchRound_trace_eq, fetchRound_costs_eq, pickBest_total]
    refine ⟨rfl, rfl, ?_, ?_, ?_, serpStep_total env sq costs⟩
    · intro s hs
      simp only [List.mem_append] at hs
      rcases hs with (hs | hs) | hs
      · exact Or.inl hs
      · rw [mem_if_singleton hs]
        exact Or.inr rfl
      · rw [mem_if_singleton hs]
        exact Or.inr rfl
    · intro s hs
      simp only [List.mem_append] at hs
      rcases hs with hs | hs
      · exact Or.inl hs
      · rw [mem_if_singleton hs]
        exact Or.inr rfl
    · intro p hp
      simp only [List.mem_append] at hp
      rcases hp with hp | hp
      · exact Or.inl hp
      · have hpe : p = (n, th, (fetchRound env n pq uq sq costs tr).1.length) := by
          simpa using hp
        rw [hpe]
        exact Or.inr ⟨rfl, rfl⟩

/-- Outcome of a failing generative call: caught as `null`, metered nowhere,
one fallback attempt recorded. -/
theorem generateWithDalle_error {env : Env} {costs : Costs} {tr : Trace} {e : String}
    (hd : env.dalle = .error e) :
    generateWithDalle env costs tr
      = (none, costs, { tr with dalleCalls := tr.dalleCalls + 1 }) := by
  unfold generateWithDalle
  rw [hd]

/-- Outcome of a successful generative call: fixed result object, one
`dalle3` call metered, one fallback attempt recorded. -/
theorem generateWithDalle_ok {env : Env} {costs : Costs} {tr : Trace} {url : String}
    (hd : env.dalle = .ok url) :
    generateWithDalle env costs tr
      = (some (dalleResult url),
         { costs with dalle3 :=
             { calls := costs.dalle3.calls + 1
               usd := ((costs.dalle3.calls + 1 : Nat) : ℚ) * PRICE_dalle3 } },
         { tr with dalleCalls := tr.dalleCalls + 1 }) := by
  unfold generateWithDalle
  rw [hd]

/-- Bookkeeping of the generative fallback, in equation-hypothesis form. -/
theorem generateWithDalle_trace {env : Env} {costs : Costs} {tr : Trace}
    {o : Option ImageResult} {c : Costs} {t : Trace}
    (h : generateWithDalle env costs tr = (o, c, t)) :
    t.picks = tr.picks ∧ t.fetches = tr.fetches ∧ t.stockCalls = tr.stockCalls ∧
    t.serpCalls = tr.serpCalls ∧ t.dalleCalls = tr.dalleCalls + 1 ∧
    c.total_usd = costs.total_usd := by
  rcases hd : env.dalle with e | url
  · rw [generateWithDalle_error hd] at h
    injection h with h1 h23
    injection h23 with h2 h3
    subst h1
    subst h2
    subst h3
    exact ⟨rfl, rfl, rfl, rfl, rfl, rfl⟩
  · rw [generateWithDalle_ok hd] at h
    injection h with h1 h23
    injection h23 with h2 h3
    subst h1
    subst h2
    subst h3
    exact ⟨rfl, rfl, rfl, rfl, rfl, rfl⟩

/-- Bookkeeping of the three-round retrieval portion: the generative counter
and the grand total are untouched, and every batch-reduction event carries
exactly the decayed threshold of its round. -/
theorem runRounds_trace {env : Env} {ctx : Context} {th : Int} {costs : Costs}
    {tr : Trace} {o : Option (Nat × ScoredCandidate)} {c : Costs} {t : Trace}
    (h : runRounds env ctx th costs tr = (o, c, t)) :
    t.dalleCalls = tr.dalleCalls ∧
    c.total_usd = costs.total_usd ∧
    (∀ p ∈ t.picks, p ∈ tr.picks ∨ (p.1 = 1 ∧ p.2.1 = th) ∨ (p.1 = 2 ∧ p.2.1 = th - 1)
      ∨ (p.1 = 3 ∧ p.2.1 = th - 2)) := by
  unfold runRounds at h
  split at h
  next w c1 t1 heq1 =>
    injection h with h1 h23
    injection h23 with h2 h3
    subst h1
    subst h2
    subst h3
    obtain ⟨hd1, _, _, _, hp1, hc1⟩ := runRound_trace heq1
    refine ⟨hd1, hc1, ?_⟩
    intro p hp
    rcases hp1 p hp with h' | h'
    · exact Or.inl h'
    · exact Or.inr (Or.inl h')
  next c1 t1 heq1 =>
    obtain ⟨hd1, _, _, _, hp1, hc1⟩ := runRound_trace heq1
    split at h
    next w c2 t2 heq2 =>
      injection h with h1 h23
      injection h23 with h2 h3
      subst h1
      subst h2
      subst h3
      obtain ⟨hd2, _, _, _, hp2, hc2⟩ := runRound_trace heq2
      refine ⟨hd2.trans hd1, hc2.trans hc1, ?_⟩
      intro p hp
      rcases hp2 p hp with h' | h'
      · rcases hp1 p h' with h'' | h''
        · exact Or.inl h''
        · exact Or.inr (Or.inl h'')
      · exact Or.inr (Or.inr (Or.inl h'))
    next c2 t2 heq2 =>
      obtain ⟨hd2, _, _, _, hp2, hc2⟩ := runRound_trace heq2
      split at h
      next w c3 t3 heq3 =>
        injection h with h1 h23
        injection h23 with h2 h3
        subst h1
        subst h2
        subst h3
        obtain ⟨hd3, _, _, _, hp3, hc3⟩ := runRound_trace heq3
        refine ⟨(hd3.trans hd2).trans hd1, (hc3.trans hc2).trans hc1, ?_⟩
        intro p hp
        rcases hp3 p hp with h' | h'
        · rcases hp2 p h' with h'' | h''
          · rcases hp1 p h'' with h3' | h3'
            · exact Or.inl h3'
            · exact Or.inr (Or.inl h3')
          · exact Or.inr (Or.inr (Or.inl h''))
        · exact Or.inr (Or.inr (Or.inr h'))
      next c3 t3 heq3 =>
        injection h with h1 h23
        injection h23 with h2 h3
        subst h1
        subst h2
        subst h3
        obtain ⟨hd3, _, _, _, hp3, hc3⟩ := runRound_trace heq3
        refine ⟨(hd3.trans hd2).trans hd1, (hc3.trans hc2).trans hc1, ?_⟩
        intro p hp
        rcases hp3 p hp with h' | h'
        · rcases hp2 p h' with h'' | h''
          · rcases hp1 p h'' with h3' | h3'
            · exact Or.inl h3'
            · exact Or.inr (Or.inl h3')
          · exact Or.inr (Or.inr (Or.inl h''))
        · exact Or.inr (Or.inr (Or.inr h'))

/-- C2: in every run of the waterfall, with any base threshold, every batch
reduction of round N is invoked with effective threshold exactly
`base - (N - 1)` for N in {1, 2, 3} — so the threshold decays by one full
point per round and is never raised. -/
theorem waterfall_threshold_decay (env : Env) (ctx : Context) (th : Int)
    (costs : Costs) (p : Nat × Int × Nat)
    (hp : p ∈ (waterfall env ctx th costs emptyTrace).2.2.picks) :
    (p.1 = 1 ∧ p.2.1 = th) ∨ (p.1 = 2 ∧ p.2.1 = th - 1)
      ∨ (p.1 = 3 ∧ p.2.1 = th - 2) := by
  unfold waterfall at hp
  split at hp
  next nw cR tR heq =>
    rcases (runRounds_trace heq).2.2 p hp with h' | h'
    · simp [emptyTrace] at h'
    · exact h'
  next cR tR heq =>
    rcases hg : generateWithDalle env cR tR with ⟨og, cg, tg⟩
    rw [hg] at hp
    obtain ⟨hpicks, _, _, _, _, _⟩ := generateWithDalle_trace hg
    rw [hpicks] at hp
    rcases (runRounds_trace heq).2.2 p hp with h' | h'
    · simp [emptyTrace] at h'
    · exact h'

/-- Witness for C2 at a concrete run: round 1 reduces a one-candidate batch
at base threshold 7, and the theorem classifies that pick event. -/
theorem waterfall_threshold_decay_witness :
    (((1, 7, 1) : Nat × Int × Nat).1 = 1 ∧ ((1, 7, 1) : Nat × Int × Nat).2.1 = 7)
      ∨ (((1, 7, 1) : Nat × Int × Nat).1 = 2 ∧ ((1, 7, 1) : Nat × Int × Nat).2.1 = 7 - 1)
      ∨ (((1, 7, 1) : Nat × Int × Nat).1 = 3 ∧ ((1, 7, 1) : Nat × Int × Nat).2.1 = 7 - 2) :=
  waterfall_threshold_decay envRound1Win ctxW 7 freshCosts (1, 7, 1) (by decide)

/-- C6: the waterfall controller short-circuits.  Whenever round N's batch
reduction returns a non-null winner, the waterfall's result is exactly that
winner, the generative provider is never invoked (zero fallback attempts),
and no round, stock-source call, web-search call or batch reduction beyond
round N ever executes. -/
theorem waterfall_short_circuits {env : Env} {ctx : Context} {th : Int} {costs : Costs}
    {n : Nat} {w : ScoredCandidate} {c : Costs} {t : Trace}
    (h : runRounds env ctx th costs emptyTrace = (some (n, w), c, t)) :
    waterfall env ctx th costs emptyTrace = (some (ofScored w), c, t) ∧
    t.dalleCalls = 0 ∧
    (∀ m ∈ t.fetches, m ≤ n) ∧
    (∀ s ∈ t.stockCalls, s.1 ≤ n) ∧
    (∀ s ∈ t.serpCalls, s.1 ≤ n) ∧
    (∀ p ∈ t.picks, p.1 ≤ n) := by
  refine ⟨by unfold waterfall; rw [h], ?_⟩
  unfold runRounds at h
  split at h
  next w1 c1 t1 heq1 =>
    injection h with h1 h23
    injection h23 with h2 h3
    injection h1 with h1'
    injection h1' with hn hw1
    subst hn
    subst h2
    subst h3
    obtain ⟨hd1, hf1, hs1, hr1, hp1, _⟩ := runRound_trace heq1
    refine ⟨hd1, ?_, ?_, ?_, ?_⟩
    · intro m hm
      rw [hf1] at hm
      simp only [emptyTrace, List.nil_append, List.mem_singleton] at hm
      omega
    · intro s hs
      rcases hs1 s hs with h' | h'
      · simp [emptyTrace] at h'
      · omega
    · intro s hs
      rcases hr1 s hs with h' | h'
      · simp [emptyTrace] at h'
      · omega
    · intro p hp
      rcases hp1 p hp with h' | h'
      · simp [emptyTrace] at h'
      · obtain ⟨h'', _⟩ := h'
        omega
  next c1 t1 heq1 =>
    obtain ⟨hd1, hf1, hs1, hr1, hp1, _⟩ := runRound_trace heq1
    split at h
    next w2 c2 t2 heq2 =>
      injection h with h1 h23
      injection h23 with h2 h3
      injection h1 with h1'
      injection h1' with hn hw2
      subst hn
      subst h2
      subst h3
      obtain ⟨hd2, hf2, hs2, hr2, hp2, _⟩ := runRound_trace heq2
      refine ⟨hd2.trans hd1, ?_, ?_, ?_, ?_⟩
      · intro m hm
        rw [hf2, hf1] at hm
        simp only [emptyTrace, List.nil_append, List.mem_append, List.mem_singleton] at hm
        omega
      · intro s hs
        rcases hs2 s hs with h' | h'
        · rcases hs1 s h' with h'' | h''
          · simp [emptyTrace] at h''
          · omega
        · omega
      · intro s hs
        rcases hr2 s hs with h' | h'
        · rcases hr1 s h' with h'' | h''
          · simp [emptyTrace] at h''
          · omega
        · omega
      · intro p hp
        rcases hp2 p hp with h' | h'
        · rcases hp1 p h' with h'' | h''
          · simp [emptyTrace] at h''
          · obtain ⟨h3', _⟩ := h''
            omega
        · obtain ⟨h3', _⟩ := h'
          omega
    next c2 t2 heq2 =>
      obtain ⟨hd2, hf2, hs2, hr2, hp2, _⟩ := runRound_trace heq2
      split at h
      next w3 c3 t3 heq3 =>
        injection h with h1 h23
        injection h23 with h2 h3
        injection h1 with h1'
        injection h1' with hn hw3
        subst hn
        subst h2
        subst h3
        obtain ⟨hd3, hf3, hs3, hr3, hp3, _⟩ := runRound_trace heq3
        refine ⟨(hd3.trans hd2).trans hd1, ?_, ?_, ?_, ?_⟩
        · intro m hm
          rw [hf3, hf2, hf1] at hm
          simp only [emptyTrace, List.nil_append, List.mem_append,
            List.mem_singleton] at hm
          omega
        · intro s hs
          rcases hs3 s hs with h' | h'
          · rcases hs2 s h' with h'' | h''
            · rcases hs1 s h'' with h3' | h3'
              · simp [emptyTrace] at h3'
              · omega
            · omega
          · omega
        · intro s hs
          rcases hr3 s hs with h' | h'
          · rcases hr2 s h' with h'' | h''
            · rcases hr1 s h'' with h3' | h3'
              · simp [emptyTrace] at h3'
              · omega
            · omega
          · omega
        · intro p hp
          rcases hp3 p hp with h' | h'
          · rcases hp2 p h' with h'' | h''
            · rcases hp1 p h'' with h3' | h3'
              · simp [emptyTrace] at h3'
              · obtain ⟨h4, _⟩ := h3'
                omega
            · obtain ⟨h4, _⟩ := h''
              omega
          · obtain ⟨h4, _⟩ := h'
            omega
      next c3 t3 heq3 =>
        injection h with h1 h23
        exact Option.noConfusion h1

/-- Scored winner produced in the `envRound1Win` fixture run. -/
def winnerScored : ScoredCandidate :=
  { url := "winner", source := "x", credit := "y", score := 9, reason := "good"
    has_forbidden_brand := false, usage := none }

/-- Trace of the `envRound1Win` fixture run: round 1 only, no fallback. -/
def trWin : Trace :=
  { fetches := [1], stockCalls := [(1, "pexels", "q1"), (1, "unsplash", "q1")]
    serpCalls := [], picks := [(1, 7, 1)], dalleCalls := 0 }

/-- Witness for C6 at a concrete run in which round 1 wins: the waterfall
stops there with zero generative attempts and no round-2 or round-3 events. -/
theorem waterfall_short_circuits_witness :
    waterfall envRound1Win ctxW 7 freshCosts emptyTrace
      = (some (ofScored winnerScored), freshCosts, trWin) :=
  (waterfall_short_circuits
    (show runRounds envRound1Win ctxW 7 freshCosts emptyTrace
        = (some (1, winnerScored), freshCosts, trWin) from rfl)).1

/-- C8: when all three rounds yield no winner, the generative provider is
attempted exactly once; its output is accepted unconditionally (the result is
the fixed DALL-E object, independent of any threshold and never judged); the
waterfall comes back empty exactly when that one generative call errors, and
in that case the request fails with the single fatal
`All image sources failed` error. -/
theorem generative_fallback_last_resort {env : Env} {ctx : Context} {u : Usage}
    {post : Option String} {cR : Costs} {tR : Trace}
    (hpost : jsTruthy post = true)
    (hex : env.extract = .ok ctx u)
    (hr : runRounds env ctx (handlerThreshold ctx) (accrueKeyword freshCosts u)
        emptyTrace = (none, cR, tR)) :
    (waterfall env ctx (handlerThreshold ctx) (accrueKeyword freshCosts u)
        emptyTrace).2.2.dalleCalls = 1 ∧
    (∀ url, env.dalle = .ok url →
      (waterfall env ctx (handlerThreshold ctx) (accrueKeyword freshCosts u)
          emptyTrace).1 = some (dalleResult url)) ∧
    ((waterfall env ctx (handlerThreshold ctx) (accrueKeyword freshCosts u)
        emptyTrace).1 = none ↔ ∃ e, env.dalle = .error e) ∧
    (∀ e, env.dalle = .error e →
      (handler env post).1
        = .serverError { success := false, error := "All image sources failed" }) := by
  have hw : waterfall env ctx (handlerThreshold ctx) (accrueKeyword freshCosts u)
      emptyTrace = generateWithDalle env cR tR := by
    unfold waterfall
    rw [hr]
  have hd0 : tR.dalleCalls = 0 := (runRounds_trace hr).1
  rcases hdal : env.dalle with e | url
  · have hgen : generateWithDalle env cR tR
        = (none, cR, { tR with dalleCalls := tR.dalleCalls + 1 }) :=
      generateWithDalle_error hdal
    rw [hw, hgen]
    refine ⟨by simp [hd0], ?_, ?_, ?_⟩
    · intro url hurl
      exact Except.noConfusion hurl
    · constructor
      · intro _
        exact ⟨e, rfl⟩
      · intro _
        rfl
    · intro e' _
      unfold handler
      rw [hex]
      dsimp only
      rw [hw, hgen]
      simp [hpost]
  · have hgen : generateWithDalle env cR tR
        = (some (dalleResult url),
           { cR with dalle3 :=
               { calls := cR.dalle3.calls + 1
                 usd := ((cR.dalle3.calls + 1 : Nat) : ℚ) * PRICE_dalle3 } },
           { tR with dalleCalls := tR.dalleCalls + 1 }) :=
      generateWithDalle_ok hdal
    rw [hw, hgen]
    refine ⟨by simp [hd0], ?_, ?_, ?_⟩
    · intro url' hurl
      injection hurl with hu
      subst hu
      rfl
    · constructor
      · intro hnone
        exact absurd hnone (by simp)
      · rintro ⟨e, he⟩
        exact Except.noConfusion he
    · intro e he
      exact Except.noConfusion he

/-- Trace of the `envGenFail` fixture run after the three empty rounds. -/
def trGenRounds : Trace :=
  { fetches := [1, 2, 3]
    stockCalls := [(1, "pexels", "q1"), (1, "unsplash", "q1"),
                   (2, "pexels", "q2"), (2, "unsplash", "q2"),
                   (3, "pexels", "q3"), (3, "unsplash", "q3")]
    serpCalls := [], picks := [], dalleCalls := 0 }

/-- Witness for C8 at a concrete run with every source empty and a failing
generative call: exactly one fallback attempt is recorded. -/
theorem generative_fallback_last_resort_witness :
    (waterfall envGenFail ctxW (handlerThreshold ctxW)
        (accrueKeyword freshCosts { prompt_tokens := 100, completion_tokens := 50 })
        emptyTrace).2.2.dalleCalls = 1 :=
  (generative_fallback_last_resort
    (show jsTruthy (some "a post") = true from rfl) rfl
    (show runRounds envGenFail ctxW (handlerThreshold ctxW)
        (accrueKeyword freshCosts { prompt_tokens := 100, completion_tokens := 50 })
        emptyTrace
      = (none,
         accrueKeyword freshCosts { prompt_tokens := 100, completion_tokens := 50 },
         trGenRounds) from rfl)).1

/-- The whole waterfall never touches the ledger's grand total. -/
theorem waterfall_total {env : Env} {ctx : Context} {th : Int} {costs : Costs}
    {tr : Trace} {o : Option ImageResult} {c : Costs} {t : Trace}
    (h : waterfall env ctx th costs tr = (o, c, t)) :
    c.total_usd = costs.total_usd := by
  unfold waterfall at h
  split at h
  next nw cR tR heq =>
    injection h with h1 h23
    injection h23 with h2 h3
    subst h2
    exact (runRounds_trace heq).2.1
  next cR tR heq =>
    exact ((generateWithDalle_trace h).2.2.2.2.2).trans (runRounds_trace heq).2.1

/-- C10: every request that ends in an error response carries only the
failure flag (always false) and the error message; the ledger's grand total
is never finalized on any error path — it still holds its initial zero, even
though individual entries may have accrued.  Cost finalization and reporting
happen only on the success path. -/
theorem error_response_reports_no_costs {env : Env} {post : Option String}
    {resp : Response} {costs : Costs} {tr : Trace} {b : ErrBody}
    (h : handler env post = (resp, costs, tr))
    (hb : resp = .badRequest b ∨ resp = .serverError b) :
    b.success = false ∧ costs.total_usd = 0 := by
  unfold handler at h
  by_cases hpost : jsTruthy post
  · rw [if_neg (by simp [hpost])] at h
    split at h
    next msg heq =>
      injection h with h1 h23
      injection h23 with h2 h3
      subst h1
      subst h2
      rcases hb with hb | hb
      · exact Response.noConfusion hb
      · injection hb with hb'
        rw [← hb']
        exact ⟨rfl, rfl⟩
    next msg u heq =>
      injection h with h1 h23
      injection h23 with h2 h3
      subst h1
      subst h2
      rcases hb with hb | hb
      · exact Response.noConfusion hb
      · injection hb with hb'
        rw [← hb']
        exact ⟨rfl, rfl⟩
    next ctx u heq =>
      split at h
      next cW trW heqW =>
        injection h with h1 h23
        injection h23 with h2 h3
        subst h1
        subst h2
        rcases hb with hb | hb
        · exact Response.noConfusion hb
        · injection hb with hb'
          rw [← hb']
          exact ⟨rfl, (waterfall_total heqW).trans rfl⟩
      next img cW trW heqW =>
        split at h
        next msg heqD =>
          injection h with h1 h23
          injection h23 with h2 h3
          subst h1
          subst h2
          rcases hb with hb | hb
          · exact Response.noConfusion hb
          · injection hb with hb'
            rw [← hb']
            exact ⟨rfl, (waterfall_total heqW).trans rfl⟩
        next val heqD =>
          split at h
          next msg heqU =>
            injection h with h1 h23
            injection h23 with h2 h3
            subst h1
            subst h2
            rcases hb with hb | hb
            · exact Response.noConfusion hb
            · injection hb with hb'
              rw [← hb']
              exact ⟨rfl, (waterfall_total heqW).trans rfl⟩
          next up heqU =>
            injection h with h1 h23
            injection h23 with h2 h3
            subst h1
            rcases hb with hb | hb
            · simp [successResponse] at hb
            · simp [successResponse] at hb
  · rw [if_pos (by simp [hpost])] at h
    injection h with h1 h23
    injection h23 with h2 h3
    subst h1
    subst h2
    rcases hb with hb | hb
    · injection hb with hb'
      rw [← hb']
      exact ⟨rfl, rfl⟩
    · exact Response.noConfusion hb

/-- Witness for C10 at a concrete failing request: extraction fails, the
response is the bare failure body, and the grand total was never finalized. -/
theorem error_response_reports_no_costs_witness :
    ({ success := false, error := "keyword extraction down" } : ErrBody).success = false ∧
    freshCosts.total_usd = 0 :=
  error_response_reports_no_costs
    (show handler envAllFail (some "a post")
        = (.serverError { success := false, error := "keyword extraction down" },
           freshCosts, emptyTrace) from rfl)
    (Or.inr rfl)
